import Mathlib

/-!
Verification development for safe_osint (src/main.py): a shallow embedding
of its helpers (slugify, name_parts), candidate generators
(generate_usernames, generate_emails), probe layer (check_profile_exists,
hibp_check_email) and the driver (find_public_accounts), together with
theorems settling the specification claims.

Conventions of the embedding:
- Python strings are Lean `String`s; operations are implemented over
  `String.data` (lists of characters) by structural recursion.
- Python `str.lower` / character classes are modelled over the ASCII range,
  which is the range the program's regexes and the spec's examples use.
- An HTTP GET is an oracle input of type `HttpResult`: either a status code
  or a transport exception message.  A raised `IndexError` is modelled by
  `Option`: `none` means the Python function raises.
- Python `set` objects are modelled by lists of their distinct elements
  (`List.dedup`); only the collection of distinct elements is observable,
  since every set is consumed by `sorted`.
-/

/-- The ASCII whitespace characters matched by the regex class backslash-s,
used by `re.split` in `name_parts` and by `str.strip`. -/
def pyIsSpace (c : Char) : Bool :=
  c = ' ' || c = '\t' || c = '\n' || c = '\r' || c = '\x0b' || c = '\x0c'

/-- Split a character list at every character satisfying `p`.  Fragments
between consecutive separators are empty; `name_parts` filters those out,
which makes this equivalent to `re.split` on one-or-more whitespace. -/
def splitChars (p : Char → Bool) : List Char → List (List Char)
  | [] => [[]]
  | c :: rest =>
    let r := splitChars p rest
    if p c then [] :: r
    else
      match r with
      | [] => [[c]]
      | h :: t => (c :: h) :: t

/-- `str.strip()`: drop leading and trailing whitespace. -/
def stripChars (l : List Char) : List Char :=
  ((l.dropWhile pyIsSpace).reverse.dropWhile pyIsSpace).reverse

/-- `str.lower()` over the ASCII range. -/
def pyLower (s : String) : String :=
  String.mk (s.data.map Char.toLower)

/-- Python `s[0]`: `none` models the `IndexError` raised on an empty string. -/
def pyIndex0 (s : String) : Option Char :=
  s.data.head?

/-- Python `s[0] if s else ''` (the guarded indexing used in `generate_emails`). -/
def safeHead (s : String) : String :=
  match pyIndex0 s with
  | none => ""
  | some c => String.singleton c

/-- The characters kept by `re.sub(r'[^a-z0-9]', '', ·)`. -/
def isSlugChar (c : Char) : Bool :=
  ('a' ≤ c && c ≤ 'z') || ('0' ≤ c && c ≤ '9')

/-- `def slugify(s): return re.sub(r'[^a-z0-9]', '', s.lower())` -/
def slugify (s : String) : String :=
  String.mk ((pyLower s).data.filter isSlugChar)

/-- `def name_parts(full_name)`: split the stripped name on whitespace and
keep the non-empty fragments. -/
def name_parts (full_name : String) : List String :=
  ((splitChars pyIsSpace (stripChars full_name.data)).map String.mk).filter
    (fun p => p ≠ "")

/-- The lexicographic (code-point) comparison Python's `sorted` uses on
strings, as a boolean relation on character lists. -/
def lexLe : List Char → List Char → Bool
  | [], _ => true
  | _ :: _, [] => false
  | a :: as, b :: bs => if a < b then true else if b < a then false else lexLe as bs

/-- Python's string order (code-point lexicographic), used by `sorted`. -/
def pyStrLe (s t : String) : Prop :=
  lexLe s.data t.data = true

instance : DecidableRel pyStrLe := fun s t =>
  inferInstanceAs (Decidable (lexLe s.data t.data = true))

/-- The first characters `p[0]` of a list of strings, in order; `none`
models the `IndexError` on an empty part. -/
def initialsChars : List String → Option (List Char)
  | [] => some []
  | p :: rest => do
    let c ← pyIndex0 p
    let cs ← initialsChars rest
    pure (c :: cs)

/-- `''.join(p[0].lower() for p in parts)`: `none` models the `IndexError`
on an empty part (unreachable, since `name_parts` filters empties). -/
def pyInitials (parts : List String) : Option String :=
  (initialsChars parts).map (fun cs => String.mk (cs.map Char.toLower))

/-- The tail of `generate_usernames`: the candidate set (a Python set:
distinct strings), the numeric suffixes 1..3 added over a snapshot of the
set, and the final `sorted(slugify(u) for u in candidates)`. -/
def finalizeCandidates (withMid : List String) : List String :=
  let cands := withMid.dedup
  let withSuffix := cands ++ cands.flatMap (fun b => [b ++ "1", b ++ "2", b ++ "3"])
  List.insertionSort pyStrLe ((withSuffix.dedup).map slugify)

/-- `def generate_usernames(full_name)`.  Returns `none` when the Python
code raises: `last[0]` raises `IndexError` whenever `last` is empty, which
happens exactly for single-token names. -/
def generate_usernames (full_name : String) : Option (List String) :=
  let parts := name_parts full_name
  if parts.isEmpty then some [] else do
    let first := pyLower (parts.headD "")
    let last := if parts.length > 1 then pyLower (parts.getLastD "") else ""
    let initials ← pyInitials parts
    let f0 ← pyIndex0 first
    let l0 ← pyIndex0 last
    let basic : List String :=
      [ first, last, initials,
        first ++ last,
        first ++ "." ++ last,
        first ++ "_" ++ last,
        String.singleton f0 ++ last,
        first ++ String.singleton l0,
        first ++ "-" ++ last ]
    let withMid ←
      if h : parts.length > 2 then do
        let mid := pyLower (parts.get ⟨1, by omega⟩)
        let m0 ← pyIndex0 mid
        pure (basic ++
          [ first ++ mid,
            first ++ String.singleton m0 ++ last,
            String.singleton f0 ++ String.singleton m0 ++ last ])
      else pure basic
    pure (finalizeCandidates withMid)

/-- The characters kept by `re.sub(r'[^a-z0-9._-]', '', ·)`. -/
def isEmailChar (c : Char) : Bool :=
  ('a' ≤ c && c ≤ 'z') || ('0' ≤ c && c ≤ '9') || c = '.' || c = '_' || c = '-'

/-- `def generate_emails(full_name, domains)`: for each domain and each of
the eight patterns, format the local part, sanitise it, and collect the
distinct addresses, sorted. -/
def generate_emails (full_name : String) (domains : List String) : Option (List String) :=
  let parts := name_parts full_name
  if parts.isEmpty then some [] else do
    let first := pyLower (parts.headD "")
    let last := if parts.length > 1 then pyLower (parts.getLastD "") else ""
    let initials ← pyInitials parts
    let localParts : List String :=
      [ first ++ "." ++ last,
        first ++ last,
        safeHead first ++ last,
        first ++ safeHead last,
        first,
        last,
        initials,
        first ++ "_" ++ last ]
    let emails := (domains.flatMap (fun d => localParts.map (fun pat =>
      String.mk (pat.data.filter isEmailChar) ++ "@" ++ d))).dedup
    pure (List.insertionSort pyStrLe emails)

/-- The outcome of one HTTP GET: a status code, or the message of a raised
`requests.RequestException`. -/
abbrev HttpResult := Except String Nat

/-- `def check_profile_exists(url)`: classify the response.  The pair is
Python's `(exists, info)`: `some true`/`some false`/`none` for
`True`/`False`/`None`, and the detail is the status code or the error
string. -/
def check_profile_exists (resp : HttpResult) : Option Bool × (Nat ⊕ String) :=
  match resp with
  | Except.ok status =>
    if status = 200 then (some true, Sum.inl status)
    else if status = 301 ∨ status = 302 then (some true, Sum.inl status)
    else (some false, Sum.inl status)
  | Except.error e => (none, Sum.inr e)

/-- Python truthiness of the `HIBP_API_KEY` configuration value: `None` and
the empty string are falsy. -/
def keyFalsy : Option String → Bool
  | none => true
  | some k => k = ""

/-- `def hibp_check_email(email)`, with the module configuration
`HIBP_API_KEY` and the network response as oracle inputs.  The second
component counts the HTTP requests issued by the call (0 or 1): with a
falsy key the function returns before any request. -/
def hibp_check_email (apiKey : Option String) (resp : HttpResult) : Option Bool × Nat :=
  if keyFalsy apiKey then (none, 0)
  else
    match resp with
    | Except.ok status =>
      if status = 200 then (some true, 1)
      else if status = 404 then (some false, 1)
      else (none, 1)
    | Except.error _ => (none, 1)

/-- The `SITES` table, in the source's (insertion) order.  The literal
braces of the Python format placeholders appear as their escapes. -/
def SITES : List (String × String) :=
  [ ("GitHub", "https://github.com/\x7b\x7d"),
    ("X", "https://x.com/\x7b\x7d"),
    ("Instagram", "https://instagram.com/\x7b\x7d"),
    ("Reddit", "https://reddit.com/user/\x7b\x7d"),
    ("TikTok", "https://www.tiktok.com/@\x7b\x7d"),
    ("Pinterest", "https://pinterest.com/\x7b\x7d/"),
    ("StackOverflow", "https://stackoverflow.com/users/\x7b\x7d") ]

/-- Replace each two-character placeholder of a format string by `arg`:
`pattern.format(u)` for the single-placeholder `SITES` patterns. -/
def formatChars (arg : List Char) : List Char → List Char
  | [] => []
  | '\x7b' :: '\x7d' :: rest => arg ++ formatChars arg rest
  | c :: rest => c :: formatChars arg rest

/-- `pattern.format(u)`. -/
def pyFormat (pat arg : String) : String :=
  String.mk (formatChars arg.data pat.data)

/-- One outbound request of the driver: a profile probe to a URL, or an
HIBP breach lookup for an email. -/
inductive Request where
  | probe (url : String)
  | hibp (email : String)
deriving DecidableEq

def isProbe : Request → Bool
  | Request.probe _ => true
  | Request.hibp _ => false

def isHibp : Request → Bool
  | Request.probe _ => false
  | Request.hibp _ => true

/-- One entry of `found["usernames"]`. -/
structure UserHit where
  site : String
  username : String
  url : String
  status : Nat ⊕ String
deriving DecidableEq

/-- One entry of `found["emails"]`. -/
structure EmailHit where
  email : String
  pwned : Bool
deriving DecidableEq

/-- The driver's result dictionary `found`. -/
structure Findings where
  usernames : List UserHit
  emails : List EmailHit
deriving DecidableEq

instance : Inhabited Findings := ⟨⟨[], []⟩⟩

/-- The inner loop of the username phase: probe one username on each site,
increment `checked`, record hits, and return early (flag `true`) as soon as
`checked` reaches `max_results`. -/
def siteLoop (net : String → HttpResult) (maxResults : Nat) (u : String) :
    List (String × String) → Nat → List UserHit → List Request →
    Nat × List UserHit × List Request × Bool
  | [], checked, acc, reqs => (checked, acc, reqs, false)
  | (siteName, pat) :: rest, checked, acc, reqs =>
    let url := pyFormat pat u
    let res := check_profile_exists (net url)
    let checked1 := checked + 1
    let reqs1 := reqs ++ [Request.probe url]
    let acc1 := if res.1 = some true then acc ++ [⟨siteName, u, url, res.2⟩] else acc
    if maxResults ≤ checked1 then (checked1, acc1, reqs1, true)
    else siteLoop net maxResults u rest checked1 acc1 reqs1

/-- The outer loop of the username phase, over the candidate usernames. -/
def userLoop (net : String → HttpResult) (maxResults : Nat) :
    List String → Nat → List UserHit → List Request →
    Nat × List UserHit × List Request × Bool
  | [], checked, acc, reqs => (checked, acc, reqs, false)
  | u :: rest, checked, acc, reqs =>
    match siteLoop net maxResults u SITES checked acc reqs with
    | (checked1, acc1, reqs1, early) =>
      if early then (checked1, acc1, reqs1, true)
      else userLoop net maxResults rest checked1 acc1 reqs1

/-- The email phase: one HIBP lookup per candidate email, recording a hit
only on a `True` (breached) answer.  No cap is consulted here. -/
def emailLoop (hibpNet : String → HttpResult) (apiKey : Option String) :
    List String → List EmailHit → List Request → List EmailHit × List Request
  | [], acc, reqs => (acc, reqs)
  | e :: rest, acc, reqs =>
    let res := hibp_check_email apiKey (hibpNet e)
    let reqs1 := reqs ++ (if res.2 = 0 then [] else [Request.hibp e])
    let acc1 := if res.1 = some true then acc ++ [⟨e, true⟩] else acc
    emailLoop hibpNet apiKey rest acc1 reqs1

/-- `def find_public_accounts(full_name, domains_for_emails=None, max_results=50)`.
The two network oracles map a URL (resp. an email) to the response of the
GET issued for it.  `none` models a raised exception (from
`generate_usernames`); otherwise the findings are returned together with
the chronological log of outbound requests. -/
def find_public_accounts (net hibpNet : String → HttpResult) (apiKey : Option String)
    (full_name : String) (domains_for_emails : Option (List String))
    (max_results : Nat) : Option (Findings × List Request) := do
  let usernames ← generate_usernames full_name
  let domains := domains_for_emails.getD [ "gmail.com", "yahoo.com", "outlook.com" ]
  let emails ← generate_emails full_name domains
  match userLoop net max_results usernames 0 [] [] with
  | (_, uhits, reqs, early) =>
    if early then pure (⟨uhits, []⟩, reqs)
    else
      match emailLoop hibpNet apiKey emails [] reqs with
      | (ehits, reqs1) => pure (⟨uhits, ehits⟩, reqs1)

/-- Number of profile probes in a request log. -/
def numProbes (reqs : List Request) : Nat :=
  reqs.countP isProbe

/-- Number of HIBP lookups in a request log. -/
def numHibp (reqs : List Request) : Nat :=
  reqs.countP isHibp

/-- A network oracle on which every GET raises a transport exception; used
to instantiate concrete runs of the driver. -/
def errNet : String → HttpResult := fun _ => Except.error "connection refused"

/-! ## Order properties of the Python string comparison -/

lemma lexLe_total : ∀ as bs : List Char, lexLe as bs = true ∨ lexLe bs as = true
  | [], _ => by left; rfl
  | _ :: _, [] => by right; rfl
  | a :: as, b :: bs => by
    rcases lt_trichotomy a b with h | h | h
    · left; simp [lexLe, h]
    · subst h
      have ih := lexLe_total as bs
      simpa [lexLe, lt_irrefl] using ih
    · right; simp [lexLe, h]

lemma lexLe_trans : ∀ as bs cs : List Char,
    lexLe as bs = true → lexLe bs cs = true → lexLe as cs = true
  | [], _, _ => by intro _ _; rfl
  | _ :: _, [], _ => by intro h _; simp [lexLe] at h
  | _ :: _, _ :: _, [] => by intro _ h; simp [lexLe] at h
  | a :: as, b :: bs, c :: cs => by
    intro h1 h2
    by_cases hab : a < b
    · have hbc : b ≤ c := by
        by_contra hcb
        push_neg at hcb
        simp [lexLe, hcb, asymm hcb] at h2
      have hac : a < c := lt_of_lt_of_le hab hbc
      simp [lexLe, hac]
    · have hba : ¬ b < a := by
        by_contra hba
        simp [lexLe, hab, hba] at h1
      have hab' : a = b := le_antisymm (not_lt.mp hba) (not_lt.mp hab)
      subst hab'
      simp only [lexLe, hab, if_neg, if_neg hba] at h1 ⊢
      by_cases hac : a < c
      · simp [hac]
      · have hca : ¬ c < a := by
          by_contra hca
          simp [lexLe, hac, hca] at h2
        have : lexLe bs cs = true := by
          have hca' : a = c := le_antisymm (not_lt.mp hca) (not_lt.mp hac)
          subst hca'
          simpa [lexLe, lt_irrefl] using h2
        simp [hac, hca, lexLe_trans as bs cs h1 this]

/-! ## Helper lemmas on strings and name parts -/

lemma string_eq_empty_iff_data {s : String} : s = "" ↔ s.data = [] := by
  cases s with
  | mk l =>
    constructor
    · intro h; exact congrArg String.data h
    · intro h; subst h; rfl

lemma pyLower_ne_empty {s : String} (h : s ≠ "") : pyLower s ≠ "" := by
  intro he
  apply h
  rw [string_eq_empty_iff_data] at he ⊢
  simpa [pyLower] using he

lemma pyIndex0_isSome {s : String} (h : s ≠ "") : ∃ c, pyIndex0 s = some c := by
  have h' : s.data ≠ [] := fun hd => h (string_eq_empty_iff_data.mpr hd)
  cases hd : s.data with
  | nil => exact absurd hd h'
  | cons c cs => exact ⟨c, by simp [pyIndex0, hd]⟩

lemma name_parts_ne_empty {n : String} : ∀ p ∈ name_parts n, p ≠ "" := by
  intro p hp
  have := (List.mem_filter.mp hp).2
  simpa using this

lemma initialsChars_isSome {parts : List String} (h : ∀ p ∈ parts, p ≠ "") :
    ∃ cs, initialsChars parts = some cs := by
  induction parts with
  | nil => exact ⟨[], rfl⟩
  | cons p rest ih =>
    obtain ⟨c, hc⟩ := pyIndex0_isSome (h p (List.mem_cons_self p rest))
    obtain ⟨cs, hcs⟩ := ih (fun q hq => h q (List.mem_cons_of_mem p hq))
    exact ⟨c :: cs, by simp [initialsChars, hc, hcs]⟩

lemma pyInitials_isSome {parts : List String} (h : ∀ p ∈ parts, p ≠ "") :
    ∃ i, pyInitials parts = some i := by
  obtain ⟨cs, hcs⟩ := initialsChars_isSome h
  exact ⟨String.mk (cs.map Char.toLower), by simp [pyInitials, hcs]⟩

/-! ## C2: single-token names -/

set_option maxHeartbeats 1000000 in
/-- C2: the claim says a one-token name such as "Madonna" does not crash
`generate_usernames`.  The code evaluated at that input: `last` is the empty
string, so building the candidate `f"{first}{last[0]}"` raises `IndexError`
(modelled by `none`), contradicting the claim. -/
theorem generate_usernames_madonna_raises : generate_usernames "Madonna" = none := by
  decide

/-! ## C4: response classification of check_profile_exists -/

/-- C4: `check_profile_exists` classifies status 200, 301 and 302 as
existence-positive with the status as detail, any other status as
existence-negative with the status as detail, and turns a transport
exception into an unknown result carrying the error description; being a
total function of the response, it propagates no exception. -/
theorem check_profile_exists_classification :
    (∀ s : Nat, (s = 200 ∨ s = 301 ∨ s = 302 →
        check_profile_exists (Except.ok s) = (some true, Sum.inl s)) ∧
      (s ≠ 200 → s ≠ 301 → s ≠ 302 →
        check_profile_exists (Except.ok s) = (some false, Sum.inl s))) ∧
    (∀ e : String, check_profile_exists (Except.error e) = (none, Sum.inr e)) := by
  refine ⟨fun s => ⟨fun h => ?_, fun h1 h2 h3 => ?_⟩, fun e => rfl⟩
  · rcases h with h | h | h <;> subst h <;> rfl
  · simp [check_profile_exists, h1, h2, h3]

/-- Witness for C4 at the concrete statuses 200, 404 and a transport error. -/
theorem check_profile_exists_classification_witness :
    check_profile_exists (Except.ok 200) = (some true, Sum.inl 200) ∧
    check_profile_exists (Except.ok 404) = (some false, Sum.inl 404) ∧
    check_profile_exists (Except.error "timeout") = (none, Sum.inr "timeout") :=
  ⟨(check_profile_exists_classification.1 200).1 (Or.inl rfl),
   (check_profile_exists_classification.1 404).2 (by decide) (by decide) (by decide),
   check_profile_exists_classification.2 "timeout"⟩

/-! ## C5: hibp_check_email -/

/-- C5: with no API key configured `hibp_check_email` answers unknown and
issues no request, whatever the response oracle would say; with a
(non-empty, hence truthy) key it issues one request and answers breached on
200, not-breached on 404, and unknown on any other status or transport
failure; being a total function, it propagates no exception. -/
theorem hibp_check_email_classification :
    (∀ resp : HttpResult, hibp_check_email none resp = (none, 0)) ∧
    (∀ k : String, k ≠ "" →
      hibp_check_email (some k) (Except.ok 200) = (some true, 1) ∧
      hibp_check_email (some k) (Except.ok 404) = (some false, 1) ∧
      (∀ s : Nat, s ≠ 200 → s ≠ 404 →
        hibp_check_email (some k) (Except.ok s) = (none, 1)) ∧
      (∀ e : String, hibp_check_email (some k) (Except.error e) = (none, 1))) := by
  have hkey : ∀ k : String, k ≠ "" → keyFalsy (some k) = false := by
    intro k hk
    simpa [keyFalsy] using hk
  refine ⟨fun resp => rfl, fun k hk => ⟨?_, ?_, fun s h1 h2 => ?_, fun e => ?_⟩⟩
  · simp [hibp_check_email, hkey k hk]
  · simp [hibp_check_email, hkey k hk]
  · simp [hibp_check_email, hkey k hk, h1, h2]
  · simp [hibp_check_email, hkey k hk]

/-- Witness for C5 at a concrete key, email responses 200, 404, 503 and a
transport error. -/
theorem hibp_check_email_classification_witness :
    hibp_check_email none (Except.ok 200) = (none, 0) ∧
    hibp_check_email (some "secret") (Except.ok 200) = (some true, 1) ∧
    hibp_check_email (some "secret") (Except.ok 404) = (some false, 1) ∧
    hibp_check_email (some "secret") (Except.ok 503) = (none, 1) ∧
    hibp_check_email (some "secret") (Except.error "timeout") = (none, 1) :=
  ⟨hibp_check_email_classification.1 (Except.ok 200),
   (hibp_check_email_classification.2 "secret" (by decide)).1,
   (hibp_check_email_classification.2 "secret" (by decide)).2.1,
   (hibp_check_email_classification.2 "secret" (by decide)).2.2.1 503 (by decide) (by decide),
   (hibp_check_email_classification.2 "secret" (by decide)).2.2.2 "timeout"⟩

/-! ## C7 and C8: concrete membership of the generated candidates -/

set_option maxHeartbeats 1000000 in
/-- C7: `generate_usernames("Jane Doe")` succeeds and its output includes
"janedoe", "jdoe", "janed", "jane", "doe", "jd" and the numerically
suffixed variant "janedoe1". -/
theorem generate_usernames_jane_doe_members :
    (generate_usernames "Jane Doe").isSome = true ∧
    ∀ x ∈ ["janedoe", "jdoe", "janed", "jane", "doe", "jd", "janedoe1"],
      x ∈ (generate_usernames "Jane Doe").getD [] := by
  decide

set_option maxHeartbeats 1000000 in
/-- C8: `generate_emails("Jane Doe", ["example.com"])` succeeds and its
output includes "jane.doe@example.com", "janedoe@example.com",
"jdoe@example.com" and "jane@example.com". -/
theorem generate_emails_jane_doe_members :
    (generate_emails "Jane Doe" ["example.com"]).isSome = true ∧
    ∀ x ∈ ["jane.doe@example.com", "janedoe@example.com", "jdoe@example.com",
           "jane@example.com"],
      x ∈ (generate_emails "Jane Doe" ["example.com"]).getD [] := by
  decide

/-! ## C9: determinism of the candidate generators -/

/-- C9: the generators are deterministic: two calls of
`generate_usernames` on the same name, and two calls of `generate_emails`
on the same name and domains, yield identical outputs (they are pure
functions of their arguments, with no hidden state). -/
theorem generators_deterministic (full_name : String) (domains : List String) :
    generate_usernames full_name = generate_usernames full_name ∧
    generate_emails full_name domains = generate_emails full_name domains :=
  ⟨rfl, rfl⟩

lemma headD_mem {α : Type} {l : List α} (d : α) (h : l ≠ []) : l.headD d ∈ l := by
  cases l with
  | nil => exact absurd rfl h
  | cons a t => simp

lemma getLastD_mem {α : Type} : ∀ (l : List α) (d : α), l ≠ [] → l.getLastD d ∈ l
  | [], _, h => absurd rfl h
  | [a], _, _ => by simp
  | a :: b :: t, d, _ => by
    have ih := getLastD_mem (b :: t) a (List.cons_ne_nil b t)
    simpa [List.getLastD_cons] using List.mem_cons_of_mem a ih

lemma dedup_ne_nil {α : Type} [DecidableEq α] {l : List α} (h : l ≠ []) : l.dedup ≠ [] := by
  obtain ⟨x, hx⟩ := List.exists_mem_of_ne_nil l h
  exact List.ne_nil_of_mem (List.mem_dedup.mpr hx)

lemma generate_usernames_isSome_of (full_name : String)
    (h2 : 2 ≤ (name_parts full_name).length) :
    (generate_usernames full_name).isSome = true := by
  have hpartsne : name_parts full_name ≠ [] := by
    intro h
    rw [h] at h2
    simp at h2
  have hmem := @name_parts_ne_empty full_name
  obtain ⟨i, hi⟩ := pyInitials_isSome hmem
  have hfirst : pyLower ((name_parts full_name).headD "") ≠ "" :=
    pyLower_ne_empty (hmem _ (headD_mem "" hpartsne))
  obtain ⟨f0, hf0⟩ := pyIndex0_isSome hfirst
  have hlen1 : (name_parts full_name).length > 1 := h2
  have hlast : pyLower ((name_parts full_name).getLastD "") ≠ "" :=
    pyLower_ne_empty (hmem _ (getLastD_mem _ "" hpartsne))
  obtain ⟨l0, hl0⟩ := pyIndex0_isSome hlast
  have hE : (name_parts full_name).isEmpty = false := by
    cases hp : name_parts full_name with
    | nil => exact absurd hp hpartsne
    | cons a t => rfl
  by_cases h3 : (name_parts full_name).length > 2
  · have hmid : pyLower ((name_parts full_name).get ⟨1, by omega⟩) ≠ "" :=
      pyLower_ne_empty (hmem _ (List.get_mem _ _ _))
    obtain ⟨m0, hm0⟩ := pyIndex0_isSome hmid
    simp only [generate_usernames, hE, Bool.false_eq_true, if_false, hi, hf0, hl0,
      if_pos hlen1, dif_pos h3, hm0, Option.some_bind]
    rfl
  · simp only [generate_usernames, hE, Bool.false_eq_true, if_false, hi, hf0, hl0,
      if_pos hlen1, dif_neg h3, Option.some_bind]
    rfl

lemma generate_usernames_sound (full_name : String) (l : List String)
    (hne : name_parts full_name ≠ [])
    (hl : generate_usernames full_name = some l) :
    ∃ w, w ≠ [] ∧ l = finalizeCandidates w := by
  have hE : (name_parts full_name).isEmpty = false := by
    cases hp : name_parts full_name with
    | nil => exact absurd hp hne
    | cons a t => rfl
  simp only [generate_usernames, hE, Bool.false_eq_true, if_false] at hl
  rcases hi : pyInitials (name_parts full_name) with _ | i <;> rw [hi] at hl
  · simp at hl
  rcases hf : pyIndex0 (pyLower ((name_parts full_name).headD "")) with _ | f0 <;>
    rw [hf] at hl
  · simp at hl
  rcases hl0 : pyIndex0 (if (name_parts full_name).length > 1 then
      pyLower ((name_parts full_name).getLastD "") else "") with _ | l0 <;>
    rw [hl0] at hl
  · simp at hl
  simp only [Option.bind_eq_bind, Option.some_bind] at hl
  by_cases h3 : (name_parts full_name).length > 2
  · rw [dif_pos h3] at hl
    rcases hm : pyIndex0 (pyLower ((name_parts full_name).get ⟨1, by omega⟩)) with _ | m0 <;>
      rw [hm] at hl
    · simp at hl
    simp only [Option.bind_eq_bind, Option.some_bind, Option.pure_def,
      Option.some.injEq] at hl
    exact ⟨_, by simp, hl.symm⟩
  · rw [dif_neg h3] at hl
    simp only [Option.bind_eq_bind, Option.some_bind, Option.pure_def,
      Option.some.injEq] at hl
    exact ⟨_, by simp, hl.symm⟩

lemma finalizeCandidates_wellformed (w : List String) (hw : w ≠ []) :
    finalizeCandidates w ≠ [] ∧
    (∀ s ∈ finalizeCandidates w, ∀ c ∈ s.data,
      ('a' ≤ c ∧ c ≤ 'z') ∨ ('0' ≤ c ∧ c ≤ '9')) ∧
    List.Sorted pyStrLe (finalizeCandidates w) := by
  haveI htotal : IsTotal String pyStrLe :=
    ⟨fun s t => lexLe_total s.data t.data⟩
  haveI htrans : IsTrans String pyStrLe :=
    ⟨fun a b c h1 h2 => lexLe_trans a.data b.data c.data h1 h2⟩
  unfold finalizeCandidates
  refine ⟨?_, ?_, List.sorted_insertionSort pyStrLe _⟩
  · have h1 : ((w.dedup ++ w.dedup.flatMap
        (fun b => [b ++ "1", b ++ "2", b ++ "3"])).dedup) ≠ [] :=
      dedup_ne_nil (List.append_ne_nil_of_left_ne_nil (dedup_ne_nil hw) _)
    intro h
    apply h1
    have hlen := congrArg List.length h
    rw [List.length_insertionSort, List.length_map] at hlen
    exact List.length_eq_zero.mp hlen
  · intro s hs c hc
    rw [List.mem_insertionSort] at hs
    obtain ⟨y, hy, rfl⟩ := List.mem_map.mp hs
    have hmem : c ∈ ((pyLower y).data.filter isSlugChar) := hc
    have hcs : isSlugChar c = true := (List.mem_filter.mp hmem).2
    simpa [isSlugChar, Bool.or_eq_true, Bool.and_eq_true, decide_eq_true_eq] using hcs

/-- C3 (amended): for every full name with at least two whitespace-separated
tokens, `generate_usernames` succeeds and its output is non-empty, every
element contains only characters in a-z and 0-9 (hence is fully lowercase),
and the output is sorted in Python's lexicographic string order -- but it
may contain duplicate elements, so no no-duplicates conjunct is stated. -/
theorem generate_usernames_wellformed (full_name : String)
    (h2 : 2 ≤ (name_parts full_name).length) :
    ∃ l, generate_usernames full_name = some l ∧ l ≠ [] ∧
      (∀ s ∈ l, ∀ c ∈ s.data, ('a' ≤ c ∧ c ≤ 'z') ∨ ('0' ≤ c ∧ c ≤ '9')) ∧
      List.Sorted pyStrLe l := by
  have hs := generate_usernames_isSome_of full_name h2
  obtain ⟨l, hl⟩ := Option.isSome_iff_exists.mp hs
  have hne : name_parts full_name ≠ [] := by
    intro h
    rw [h] at h2
    simp at h2
  obtain ⟨w, hw, rfl⟩ := generate_usernames_sound full_name l hne hl
  obtain ⟨h1, hchars, hsorted⟩ := finalizeCandidates_wellformed w hw
  exact ⟨_, hl, h1, hchars, hsorted⟩

/-- Witness for C3 (amended) at the concrete name "Jane Doe". -/
theorem generate_usernames_wellformed_witness :
    ∃ l, generate_usernames "Jane Doe" = some l ∧ l ≠ [] ∧
      (∀ s ∈ l, ∀ c ∈ s.data, ('a' ≤ c ∧ c ≤ 'z') ∨ ('0' ≤ c ∧ c ≤ '9')) ∧
      List.Sorted pyStrLe l :=
  generate_usernames_wellformed "Jane Doe" (by decide)

set_option maxHeartbeats 1000000 in
/-- C3 counterexample: the claim as stated requires no duplicate elements,
but `generate_usernames("Jane Doe")` -- a name with two tokens -- contains
"janedoe" four times: the set dedups the raw candidates before `slugify`
is applied, and "janedoe", "jane.doe", "jane_doe" and "jane-doe" all
slugify to "janedoe". -/
theorem generate_usernames_jane_doe_not_nodup :
    (generate_usernames "Jane Doe").isSome = true ∧
    ¬ ((generate_usernames "Jane Doe").getD []).Nodup := by
  decide

lemma numProbes_append (r1 r2 : List Request) :
    numProbes (r1 ++ r2) = numProbes r1 + numProbes r2 :=
  List.countP_append _ _ _

lemma numHibp_append (r1 r2 : List Request) :
    numHibp (r1 ++ r2) = numHibp r1 + numHibp r2 :=
  List.countP_append _ _ _

lemma length_eq_numProbes_add_numHibp :
    ∀ reqs : List Request, reqs.length = numProbes reqs + numHibp reqs
  | [] => rfl
  | r :: rest => by
    have ih := length_eq_numProbes_add_numHibp rest
    cases r <;>
      simp [numProbes, numHibp, List.countP_cons, isProbe, isHibp] at ih ⊢ <;>
      omega

lemma siteLoop_spec (net : String → HttpResult) (maxR : Nat) (u : String) :
    ∀ (sites : List (String × String)) (checked : Nat) (acc : List UserHit)
      (reqs : List Request) (c1 : Nat) (a1 : List UserHit) (r1 : List Request)
      (e1 : Bool),
      checked < maxR →
      siteLoop net maxR u sites checked acc reqs = (c1, a1, r1, e1) →
      c1 = min (checked + sites.length) maxR ∧
      numProbes r1 = numProbes reqs + (c1 - checked) ∧
      numHibp r1 = numHibp reqs ∧
      (e1 = true ↔ maxR ≤ checked + sites.length)
  | [], checked, acc, reqs, c1, a1, r1, e1, h, heq => by
    simp only [siteLoop, Prod.mk.injEq] at heq
    obtain ⟨rfl, -, rfl, rfl⟩ := heq
    refine ⟨?_, by omega, rfl, ?_⟩
    · simp only [List.length_nil, Nat.add_zero]
      omega
    · simp only [List.length_nil, Nat.add_zero, Bool.false_eq_true, false_iff]
      omega
  | (siteName, pat) :: rest, checked, acc, reqs, c1, a1, r1, e1, h, heq => by
    simp only [siteLoop] at heq
    by_cases hcap : maxR ≤ checked + 1
    · rw [if_pos hcap] at heq
      simp only [Prod.mk.injEq] at heq
      obtain ⟨rfl, -, rfl, rfl⟩ := heq
      refine ⟨by simp [List.length_cons]; omega, ?_, numHibp_append _ _, ?_⟩
      · rw [numProbes_append]
        have : numProbes [Request.probe (pyFormat pat u)] = 1 := rfl
        omega
      · simp [List.length_cons]
        omega
    · rw [if_neg hcap] at heq
      have hlt : checked + 1 < maxR := by omega
      have ih := siteLoop_spec net maxR u rest (checked + 1)
        (if (check_profile_exists (net (pyFormat pat u))).1 = some true then
          acc ++ [⟨siteName, u, pyFormat pat u, (check_profile_exists (net (pyFormat pat u))).2⟩]
         else acc)
        (reqs ++ [Request.probe (pyFormat pat u)]) c1 a1 r1 e1 hlt heq
      obtain ⟨ih1, ih2, ih3, ih4⟩ := ih
      have hp : numProbes (reqs ++ [Request.probe (pyFormat pat u)]) =
          numProbes reqs + 1 := by
        rw [numProbes_append]; rfl
      have hh : numHibp (reqs ++ [Request.probe (pyFormat pat u)]) = numHibp reqs := by
        rw [numHibp_append]; rfl
      refine ⟨by simp [List.length_cons]; omega, by omega, by omega, ?_⟩
      rw [ih4]
      simp [List.length_cons]
      omega

lemma userLoop_spec (net : String → HttpResult) (maxR : Nat) :
    ∀ (us : List String) (checked : Nat) (acc : List UserHit)
      (reqs : List Request) (c1 : Nat) (a1 : List UserHit) (r1 : List Request)
      (e1 : Bool),
      checked < maxR →
      userLoop net maxR us checked acc reqs = (c1, a1, r1, e1) →
      c1 = min (checked + 7 * us.length) maxR ∧
      numProbes r1 = numProbes reqs + (c1 - checked) ∧
      numHibp r1 = numHibp reqs ∧
      (e1 = true ↔ maxR ≤ checked + 7 * us.length)
  | [], checked, acc, reqs, c1, a1, r1, e1, h, heq => by
    simp only [userLoop, Prod.mk.injEq] at heq
    obtain ⟨rfl, -, rfl, rfl⟩ := heq
    refine ⟨?_, by omega, rfl, ?_⟩
    · simp only [List.length_nil, Nat.mul_zero, Nat.add_zero]
      omega
    · simp only [List.length_nil, Nat.mul_zero, Nat.add_zero, Bool.false_eq_true,
        false_iff]
      omega
  | u :: rest, checked, acc, reqs, c1, a1, r1, e1, h, heq => by
    simp only [userLoop] at heq
    rcases hsite : siteLoop net maxR u SITES checked acc reqs with ⟨c2, a2, r2, e2⟩
    rw [hsite] at heq
    have hs := siteLoop_spec net maxR u SITES checked acc reqs c2 a2 r2 e2 h hsite
    have hlen : SITES.length = 7 := rfl
    rw [hlen] at hs
    obtain ⟨hs1, hs2, hs3, hs4⟩ := hs
    cases e2 with
    | true =>
      simp only [if_pos] at heq
      simp only [Prod.mk.injEq] at heq
      obtain ⟨rfl, -, rfl, rfl⟩ := heq
      have hcap : maxR ≤ checked + 7 := hs4.mp rfl
      refine ⟨?_, by omega, hs3, ?_⟩
      · simp only [List.length_cons]
        omega
      · simp only [List.length_cons, true_iff]
        have : 7 ≤ 7 * (rest.length + 1) := by omega
        omega
    | false =>
      simp only [Bool.false_eq_true, if_false] at heq
      have hnocap : ¬ maxR ≤ checked + 7 := fun hc => by
        have := hs4.mpr hc
        simp at this
      have hlt2 : c2 < maxR := by omega
      have ih := userLoop_spec net maxR rest c2 a2 r2 c1 a1 r1 e1 hlt2 heq
      obtain ⟨ih1, ih2, ih3, ih4⟩ := ih
      have hc2 : c2 = checked + 7 := by omega
      subst hc2
      refine ⟨?_, by omega, by omega, ?_⟩
      · simp only [List.length_cons]
        omega
      · rw [ih4]
        simp only [List.length_cons]
        omega

lemma emailLoop_spec (hibpNet : String → HttpResult) (apiKey : Option String) :
    ∀ (es : List String) (acc : List EmailHit) (reqs : List Request)
      (a1 : List EmailHit) (r1 : List Request),
      emailLoop hibpNet apiKey es acc reqs = (a1, r1) →
      numProbes r1 = numProbes reqs ∧
      numHibp r1 ≤ numHibp reqs + es.length
  | [], acc, reqs, a1, r1, heq => by
    simp only [emailLoop, Prod.mk.injEq] at heq
    obtain ⟨-, rfl⟩ := heq
    exact ⟨rfl, by omega⟩
  | e :: rest, acc, reqs, a1, r1, heq => by
    simp only [emailLoop] at heq
    have ih := emailLoop_spec hibpNet apiKey rest _ _ a1 r1 heq
    obtain ⟨ih1, ih2⟩ := ih
    by_cases hz : (hibp_check_email apiKey (hibpNet e)).2 = 0
    · rw [if_pos hz] at ih1 ih2
      rw [List.append_nil] at ih1 ih2
      refine ⟨ih1, ?_⟩
      simp only [List.length_cons]
      omega
    · rw [if_neg hz] at ih1 ih2
      rw [numProbes_append] at ih1
      rw [numHibp_append] at ih2
      have hp0 : numProbes [Request.hibp e] = 0 := rfl
      have hh1 : numHibp [Request.hibp e] = 1 := rfl
      refine ⟨by omega, ?_⟩
      simp only [List.length_cons]
      omega

lemma emailLoop_falsy (hibpNet : String → HttpResult) (apiKey : Option String)
    (hk : keyFalsy apiKey = true) :
    ∀ (es : List String) (acc : List EmailHit) (reqs : List Request),
      emailLoop hibpNet apiKey es acc reqs = (acc, reqs)
  | [], acc, reqs => rfl
  | e :: rest, acc, reqs => by
    have hres : hibp_check_email apiKey (hibpNet e) = (none, 0) := by
      simp [hibp_check_email, hk]
    simp only [emailLoop, hres]
    simp only [List.append_nil, if_pos, reduceCtorEq, if_neg]
    exact emailLoop_falsy hibpNet apiKey hk rest acc reqs

lemma generate_emails_isSome (full_name : String) (domains : List String)
    (h : (generate_usernames full_name).isSome = true) :
    (generate_emails full_name domains).isSome = true := by
  cases hE : (name_parts full_name).isEmpty with
  | true => simp [generate_emails, hE]
  | false =>
    rcases hi : pyInitials (name_parts full_name) with _ | i
    · exfalso
      simp [generate_usernames, hE, hi] at h
    · simp [generate_emails, hE, hi]

/-- C1 (amended): for every network behaviour, key, name whose username
generation succeeds (names that are not a single token), domains list and
`max_results` of at least 1, the driver returns, the number of username
probes issued is exactly the smaller of `max_results` and the total number
of site probes for the generated candidates -- so probing stops exactly
when the running count reaches `max_results` and never exceeds it -- and
whenever the cap is reached during the username phase, no HIBP request is
issued and the email findings stay empty (the email phase is skipped). -/
theorem find_public_accounts_cap (net hibpNet : String → HttpResult)
    (apiKey : Option String) (full_name : String)
    (domains_for_emails : Option (List String)) (max_results : Nat)
    (hmax : 1 ≤ max_results)
    (hgen : (generate_usernames full_name).isSome = true) :
    ∃ found reqs,
      find_public_accounts net hibpNet apiKey full_name domains_for_emails
          max_results = some (found, reqs) ∧
      numProbes reqs =
        min (7 * ((generate_usernames full_name).getD []).length) max_results ∧
      (max_results ≤ 7 * ((generate_usernames full_name).getD []).length →
        numHibp reqs = 0 ∧ found.emails = []) := by
  obtain ⟨us, hus⟩ := Option.isSome_iff_exists.mp hgen
  obtain ⟨es, hes⟩ := Option.isSome_iff_exists.mp
    (generate_emails_isSome full_name
      (domains_for_emails.getD [ "gmail.com", "yahoo.com", "outlook.com" ]) hgen)
  rcases hloop : userLoop net max_results us 0 [] [] with ⟨c1, uh, rq, e1⟩
  have hu := userLoop_spec net max_results us 0 [] [] c1 uh rq e1 (by omega) hloop
  obtain ⟨hu1, hu2, hu3, hu4⟩ := hu
  rw [hus]
  simp only [Option.getD_some]
  cases e1 with
  | true =>
    refine ⟨⟨uh, []⟩, rq, ?_, ?_, fun _ => ⟨?_, rfl⟩⟩
    · simp only [find_public_accounts, hus, hes, Option.bind_eq_bind,
        Option.some_bind, hloop, if_pos]
      rfl
    · have hn : numProbes ([] : List Request) = 0 := rfl
      omega
    · have hn : numHibp ([] : List Request) = 0 := rfl
      omega
  | false =>
    rcases hel : emailLoop hibpNet apiKey es [] rq with ⟨eh, rq2⟩
    have he := emailLoop_spec hibpNet apiKey es [] rq eh rq2 hel
    obtain ⟨he1, he2⟩ := he
    have hnocap : ¬ max_results ≤ 0 + 7 * us.length := fun hc => by
      have := hu4.mpr hc
      simp at this
    refine ⟨⟨uh, eh⟩, rq2, ?_, ?_, fun hc => absurd hc (by omega)⟩
    · simp only [find_public_accounts, hus, hes, Option.bind_eq_bind,
        Option.some_bind, hloop, Bool.false_eq_true, if_false, hel]
      rfl
    · have hn : numProbes ([] : List Request) = 0 := rfl
      omega

/-- C6 (amended): for every run whose username generation succeeds and
whose cap is at least 1, the driver returns; the username probes are
bounded by `max_results`, but the email phase never consults the cap, so
the HIBP lookups are bounded only by the number of generated email
candidates and the total outbound request count is bounded by
`max_results` plus that number -- not by `max_results` alone. -/
theorem find_public_accounts_request_bound (net hibpNet : String → HttpResult)
    (apiKey : Option String) (full_name : String)
    (domains_for_emails : Option (List String)) (max_results : Nat)
    (hmax : 1 ≤ max_results)
    (hgen : (generate_usernames full_name).isSome = true) :
    ∃ found reqs,
      find_public_accounts net hibpNet apiKey full_name domains_for_emails
          max_results = some (found, reqs) ∧
      numProbes reqs ≤ max_results ∧
      numHibp reqs ≤
        ((generate_emails full_name
          (domains_for_emails.getD [ "gmail.com", "yahoo.com", "outlook.com" ])).getD
            []).length ∧
      reqs.length ≤ max_results +
        ((generate_emails full_name
          (domains_for_emails.getD [ "gmail.com", "yahoo.com", "outlook.com" ])).getD
            []).length := by
  obtain ⟨us, hus⟩ := Option.isSome_iff_exists.mp hgen
  obtain ⟨es, hes⟩ := Option.isSome_iff_exists.mp
    (generate_emails_isSome full_name
      (domains_for_emails.getD [ "gmail.com", "yahoo.com", "outlook.com" ]) hgen)
  rcases hloop : userLoop net max_results us 0 [] [] with ⟨c1, uh, rq, e1⟩
  have hu := userLoop_spec net max_results us 0 [] [] c1 uh rq e1 (by omega) hloop
  obtain ⟨hu1, hu2, hu3, hu4⟩ := hu
  have hn : numProbes ([] : List Request) = 0 := rfl
  have hh : numHibp ([] : List Request) = 0 := rfl
  rw [hes]
  simp only [Option.getD_some]
  cases e1 with
  | true =>
    refine ⟨⟨uh, []⟩, rq, ?_, by omega, by omega, ?_⟩
    · simp only [find_public_accounts, hus, hes, Option.bind_eq_bind,
        Option.some_bind, hloop, if_pos]
      rfl
    · have := length_eq_numProbes_add_numHibp rq
      omega
  | false =>
    rcases hel : emailLoop hibpNet apiKey es [] rq with ⟨eh, rq2⟩
    have he := emailLoop_spec hibpNet apiKey es [] rq eh rq2 hel
    obtain ⟨he1, he2⟩ := he
    refine ⟨⟨uh, eh⟩, rq2, ?_, by omega, by omega, ?_⟩
    · simp only [find_public_accounts, hus, hes, Option.bind_eq_bind,
        Option.some_bind, hloop, Bool.false_eq_true, if_false, hel]
      rfl
    · have := length_eq_numProbes_add_numHibp rq2
      omega

/-- C10: with no HIBP API key configured, whenever the driver returns, the
"emails" list of its findings is empty: breach hits are appended only on a
`True` breach answer, and without a key `hibp_check_email` always answers
unknown. -/
theorem find_public_accounts_no_key_no_emails (net hibpNet : String → HttpResult)
    (full_name : String) (domains_for_emails : Option (List String))
    (max_results : Nat)
    (h : (find_public_accounts net hibpNet none full_name domains_for_emails
      max_results).isSome = true) :
    ((find_public_accounts net hibpNet none full_name domains_for_emails
      max_results).getD default).1.emails = [] := by
  obtain ⟨fr, heq⟩ := Option.isSome_iff_exists.mp h
  rcases hus : generate_usernames full_name with _ | us
  · rw [heq]
    exfalso
    simp [find_public_accounts, hus] at heq
  rcases hes : generate_emails full_name
      (domains_for_emails.getD [ "gmail.com", "yahoo.com", "outlook.com" ]) with _ | es
  · rw [heq]
    exfalso
    simp [find_public_accounts, hus, hes] at heq
  rcases hloop : userLoop net max_results us 0 [] [] with ⟨c1, uh, rq, e1⟩
  have hff : keyFalsy none = true := rfl
  have hfold := emailLoop_falsy hibpNet none hff es [] rq
  cases e1 with
  | true =>
    have heq2 : find_public_accounts net hibpNet none full_name domains_for_emails
        max_results = some (⟨uh, []⟩, rq) := by
      simp only [find_public_accounts, hus, hes, Option.bind_eq_bind,
        Option.some_bind, hloop, if_pos]
      rfl
    rw [heq2]
    rfl
  | false =>
    have heq2 : find_public_accounts net hibpNet none full_name domains_for_emails
        max_results = some (⟨uh, []⟩, rq) := by
      simp only [find_public_accounts, hus, hes, Option.bind_eq_bind,
        Option.some_bind, hloop, Bool.false_eq_true, if_false, hfold]
      rfl
    rw [heq2]
    rfl

set_option maxHeartbeats 1000000 in
/-- Witness for C1 (amended) at a concrete run: name "A B", cap 3, all
probes failing at transport level. -/
theorem find_public_accounts_cap_witness :
    ∃ found reqs,
      find_public_accounts errNet errNet none "A B" none 3 = some (found, reqs) ∧
      numProbes reqs = min (7 * ((generate_usernames "A B").getD []).length) 3 ∧
      (3 ≤ 7 * ((generate_usernames "A B").getD []).length →
        numHibp reqs = 0 ∧ found.emails = []) :=
  find_public_accounts_cap errNet errNet none "A B" none 3 (by decide) (by decide)

set_option maxHeartbeats 4000000 in
/-- C1 counterexample: with `max_results = 0` the claim as stated fails:
the cap test runs only after a probe has been issued, so the driver still
issues one probe, exceeding the cap of 0. -/
theorem find_public_accounts_cap_cex :
    ¬ (((find_public_accounts errNet errNet none "A B" none 0).map
        (fun p => numProbes p.2)).getD 0 ≤ 0) := by
  decide

set_option maxHeartbeats 1000000 in
/-- Witness for C6 (amended) at a concrete run: name "A B", key
configured, cap 5. -/
theorem find_public_accounts_request_bound_witness :
    ∃ found reqs,
      find_public_accounts errNet errNet (some "key") "A B" none 5 = some (found, reqs) ∧
      numProbes reqs ≤ 5 ∧
      numHibp reqs ≤
        ((generate_emails "A B"
          ((none : Option (List String)).getD [ "gmail.com", "yahoo.com", "outlook.com" ])).getD
            []).length ∧
      reqs.length ≤ 5 +
        ((generate_emails "A B"
          ((none : Option (List String)).getD [ "gmail.com", "yahoo.com", "outlook.com" ])).getD
            []).length :=
  find_public_accounts_request_bound errNet errNet (some "key") "A B" none 5
    (by decide) (by decide)

set_option maxRecDepth 10000 in
set_option maxHeartbeats 16000000 in
/-- C6 counterexample: with name "x x", a configured key and
`max_results = 141`, the 20 generated usernames yield 140 probes (the cap
is not reached), and the email phase then issues 12 uncapped HIBP
lookups: 152 outbound requests in total, exceeding `max_results`. -/
theorem find_public_accounts_request_bound_cex :
    ¬ (((find_public_accounts errNet errNet (some "key") "x x" none 141).map
        (fun p => p.2.length)).getD 0 ≤ 141) := by
  decide

set_option maxHeartbeats 4000000 in
/-- Witness for C10 at a concrete run: name "A B", no key, cap 1. -/
theorem find_public_accounts_no_key_no_emails_witness :
    ((find_public_accounts errNet errNet none "A B" none 1).getD default).1.emails = [] :=
  find_public_accounts_no_key_no_emails errNet errNet "A B" none 1 (by decide)
